import Mathlib

/-!
Verification of the PyVM x86 emulator core (`src/VM/__init__.py`,
`src/VM/internals.py`, `src/VM/kernel.py`) against its natural-language
specification.  The Python classes are shallowly embedded: machine words are
`Nat` with explicit `% 2^w` masking, the mutable `VM` object becomes the
record `PyVM.VMState`, bytes-valued expressions become little-endian `Nat`
reads, and Python exceptions escaping a handler become an explicit
`SysOutcome.exn` result.  Components of the repository that are not present
under `src/` (the `Registers`/`Memory` store, `process_ModRM`,
`stack_push`/`stack_pop`) are modelled from the specification text and are
marked as such in their doc comments.
-/

namespace PyVM

/-- An entry of the guest file-descriptor table: a host stream (the three
standard streams seeded at construction, or a file opened by `sys_open`). -/
inductive HostStream where
  | stdin
  | stdout
  | stderr
  | file (name : List Nat) (mode : String)
deriving DecidableEq, Repr

/-- The mutable state of the `VM` object: the eight 32-bit general-purpose
registers, flat byte memory, EIP, the current addressing mode
(`0` = 32-bit, `1` = 16-bit), the descriptor table seeded with the three
standard streams, the two heap watermarks, the running flag and the
recorded exit code.  Registers and memory are total functions; the spec
notes that memory bounds checking is not evidenced in the source. -/
structure VMState where
  regs : Nat → Nat
  mem : Nat → Nat
  eip : Nat
  currentMode : Nat
  descriptors : List (Option HostStream)
  programBreak : Nat
  codeSegmentEnd : Nat
  running : Bool
  retcode : Nat

/-- `sizes[current_mode]` from `VM.__init__`: 4 bytes in 32-bit mode,
2 bytes in 16-bit mode. -/
def opsize (s : VMState) : Nat :=
  if s.currentMode = 0 then 4 else 2

/-- Modelled from the spec: the Register File (its implementation is not
under `src/`).  `reg.get(loc, size)` reads the low `size` bytes of 32-bit
cell `loc` ("slot 0 accessed as 1 byte = low byte, 2 bytes = low half,
4 bytes = full"). -/
def regGet (r : Nat → Nat) (loc size : Nat) : Nat :=
  r loc % 2 ^ (8 * size)

/-- Modelled from the spec: `reg.set(loc, data)` with `size` bytes of data
overwrites the low `size` bytes of cell `loc`, preserving the high bytes. -/
def regSet (r : Nat → Nat) (loc size val : Nat) : Nat → Nat :=
  fun i =>
    if i = loc then r loc / 2 ^ (8 * size) * 2 ^ (8 * size) + val % 2 ^ (8 * size)
    else r i

/-- Modelled from the spec: `mem.get(addr, size)` followed by `to_int`,
i.e. a little-endian read of `size` bytes from the flat byte store. -/
def memGet (m : Nat → Nat) (addr : Nat) : Nat → Nat
  | 0 => 0
  | k + 1 => m addr % 256 + 256 * memGet m (addr + 1) k

/-- Modelled from the spec: `mem.set(addr, size, val)` — write the `size`
little-endian bytes of `val` into the flat byte store. -/
def memSetVal (m : Nat → Nat) (addr size val : Nat) : Nat → Nat :=
  fun a =>
    if addr ≤ a ∧ a < addr + size then val / 2 ^ (8 * (a - addr)) % 256
    else m a

/-- Modelled from the spec: `mem.set_bytes(addr, len, data)` — write a list
of bytes into the flat byte store starting at `addr`. -/
def memSetBytes (m : Nat → Nat) (addr : Nat) : List Nat → Nat → Nat
  | [] => m
  | b :: rest => memSetBytes (fun a => if a = addr then b % 256 else m a) (addr + 1) rest

/-- `MAXVALS` from `internals.py`: `[None, (1 << 8) - 1, (1 << 16) - 1,
None, (1 << 32) - 1]`, indexed by the operand width in bytes. -/
def MAXVALS : Nat → Nat
  | 1 => (1 <<< 8) - 1
  | 2 => (1 <<< 16) - 1
  | 4 => (1 <<< 32) - 1
  | _ => 0

/-- The arithmetic core shared by every `_VM__addsub_*` handler in
`internals.py`: `tmp = a + (imm if not sub else MAXVALS[off] + 1 - imm)`
followed by `tmp &= MAXVALS[off]`. -/
def addsub_core (a imm off : Nat) (sub : Bool) : Nat :=
  (a + (if sub then MAXVALS off + 1 - imm else imm)) &&& MAXVALS off

/-- The RM operand descriptor returned by the Operand Resolver:
`(is_memory, location, size)`. -/
structure RMDesc where
  isMemory : Bool
  location : Nat
  size : Nat
deriving DecidableEq, Repr

/-- The R operand descriptor returned by the Operand Resolver:
`(class_tag, register_or_subop_number, size)`.  The dispatchers inspect
only the middle field (`R[1]`) and, for register reads, the size. -/
structure RDesc where
  tag : Nat
  reg : Nat
  size : Nat
deriving DecidableEq, Repr

/-- Sign extension of an 8-bit displacement, folded into a 32-bit address. -/
def dispExt (base d width : Nat) : Nat :=
  if d < 2 ^ (8 * width - 1) then (base + d) % 2 ^ 32
  else (base + d + 2 ^ 32 - 2 ^ (8 * width)) % 2 ^ 32

/-- Modelled from the spec: `process_ModRM` (its implementation is not under
`src/`).  Consumes one ModRM byte (and displacement bytes when the
addressing form requires them) from memory at EIP, advancing EIP by the
number of bytes consumed, and returns the RM and R descriptors.
`mod == 3` is register-direct with no displacement; `mod ∈ {0,1,2}`
computes a memory address from the base register plus the encoded
displacement, with `mod == 0, rm == 5` read as pure displacement. -/
def processModRM (s : VMState) (szRM szR : Nat) : RMDesc × RDesc × VMState :=
  let modrm := s.mem s.eip % 256
  let md := modrm / 64
  let rg := modrm / 8 % 8
  let rm := modrm % 8
  let R : RDesc := ⟨md, rg, szR⟩
  if md = 3 then
    (⟨false, rm, szRM⟩, R, { s with eip := s.eip + 1 })
  else if md = 0 then
    if rm = 5 then
      (⟨true, memGet s.mem (s.eip + 1) 4, szRM⟩, R, { s with eip := s.eip + 5 })
    else
      (⟨true, regGet s.regs rm 4, szRM⟩, R, { s with eip := s.eip + 1 })
  else if md = 1 then
    (⟨true, dispExt (regGet s.regs rm 4) (memGet s.mem (s.eip + 1) 1) 1, szRM⟩,
      R, { s with eip := s.eip + 2 })
  else
    (⟨true, (regGet s.regs rm 4 + memGet s.mem (s.eip + 1) 4) % 2 ^ 32, szRM⟩,
      R, { s with eip := s.eip + 5 })

/-- Modelled from the spec: `stack_push` (its implementation is not under
`src/`).  Push writes a `w`-byte value to `[ESP - w]` and then moves the
stack-pointer register (GPR 4) down by `w`. -/
def stack_push (s : VMState) (val w : Nat) : VMState :=
  let esp := (regGet s.regs 4 4 + 2 ^ 32 - w) % 2 ^ 32
  { s with mem := memSetVal s.mem esp w val, regs := regSet s.regs 4 4 esp }

/-- Modelled from the spec: `stack_pop` — read a `w`-byte value at ESP,
then move the stack-pointer register up by `w`. -/
def stack_pop (s : VMState) (w : Nat) : Nat × VMState :=
  let esp := regGet s.regs 4 4
  (memGet s.mem esp w,
    { s with regs := regSet s.regs 4 4 ((esp + w) % 2 ^ 32) })

/-- The result of offering an opcode byte to a mnemonic dispatcher:
the boolean the Python function returns together with the state it leaves
behind, or a `RuntimeError` escaping it. -/
inductive Outcome where
  | returns (b : Bool) (s : VMState)
  | fatal (msg : String)

/-- `_VM__mov_r_imm` from `internals.py`. -/
def mov_r_imm (s : VMState) (off op : Nat) : VMState :=
  let imm := memGet s.mem s.eip off
  let s1 := { s with eip := s.eip + off }
  { s1 with regs := regSet s1.regs (op % 8) off imm }

/-- `_VM__mov_rm_imm` from `internals.py`.  Note: when the ModRM reg field
is nonzero it returns `False` with EIP already advanced past the ModRM
and displacement bytes — there is no rollback to the entry EIP. -/
def mov_rm_imm (s : VMState) (off : Nat) : Bool × VMState :=
  match processModRM s off off with
  | (RM, R, s1) =>
    if R.reg ≠ 0 then (false, s1)
    else
      let imm := memGet s1.mem s1.eip off
      let s2 := { s1 with eip := s1.eip + off }
      if ¬RM.isMemory then
        (true, { s2 with regs := regSet s2.regs RM.location off imm })
      else
        (true, { s2 with mem := memSetVal s2.mem RM.location off imm })

/-- `_VM__mov_rm_r` from `internals.py`. -/
def mov_rm_r (s : VMState) (off : Nat) : VMState :=
  match processModRM s off off with
  | (RM, R, s1) =>
    let data := regGet s1.regs R.reg R.size
    if ¬RM.isMemory then
      { s1 with regs := regSet s1.regs RM.location off data }
    else
      { s1 with mem := memSetVal s1.mem RM.location off data }

/-- `_VM__mov_r_rm` from `internals.py`. -/
def mov_r_rm (s : VMState) (off : Nat) : VMState :=
  match processModRM s off off with
  | (RM, R, s1) =>
    let data := if ¬RM.isMemory then regGet s1.regs RM.location RM.size
                else memGet s1.mem RM.location RM.size
    { s1 with regs := regSet s1.regs R.reg off data }

/-- `VM._mov` from `__init__.py`.  The `valid_op` table also lists the
accumulator/absolute-address opcodes `0xA0..0xA3` (`al,moffs8`,
`ax,moffs`, `moffs8,al`, `moffs,ax`), but no branch of the
`if`/`elif` chain tests for them, so they fall through to the final
`else` and the dispatcher returns `False`. -/
def movDispatch (s : VMState) (op : Nat) : Outcome :=
  let sz := opsize s
  if 0xB0 ≤ op ∧ op < 0xB8 then .returns true (mov_r_imm s 1 op)
  else if 0xB8 ≤ op ∧ op < 0xB8 + 8 then .returns true (mov_r_imm s sz op)
  else if op = 0xC6 then
    match mov_rm_imm s 1 with | (b, s1) => .returns b s1
  else if op = 0xC7 then
    match mov_rm_imm s sz with | (b, s1) => .returns b s1
  else if op = 0x88 then .returns true (mov_rm_r s 1)
  else if op = 0x89 then .returns true (mov_rm_r s sz)
  else if op = 0x8A then .returns true (mov_r_rm s 1)
  else if op = 0x8B then .returns true (mov_r_rm s sz)
  else if op = 0x8C then .fatal "Segment registers not implemented yet"
  else if op = 0x8E then .fatal "Segment registers not implemented yet"
  else .returns false s

/-- `VM._push` from `__init__.py`.  For the group opcode `0xFF` with a
ModRM reg field other than 6 it returns `False` with EIP already advanced
past the ModRM bytes — no rollback. -/
def pushDispatch (s : VMState) (op : Nat) : Outcome :=
  let sz := opsize s
  if op = 0xFF then
    match processModRM s sz sz with
    | (RM, R, s1) =>
      if R.reg ≠ 6 then .returns false s1
      else
        let data := if ¬RM.isMemory then regGet s1.regs RM.location sz
                    else memGet s1.mem RM.location sz
        .returns true (stack_push s1 data sz)
  else if 0x50 ≤ op ∧ op < 0x58 then
    .returns true (stack_push s (regGet s.regs (op % 8) sz) sz)
  else if op = 0x6A then
    let data := memGet s.mem s.eip 1
    .returns true (stack_push { s with eip := s.eip + 1 } data 1)
  else if op = 0x68 then
    let data := memGet s.mem s.eip sz
    .returns true (stack_push { s with eip := s.eip + sz } data sz)
  else .returns false s

/-- `VM._pop` from `__init__.py`.  For the group opcode `0x8F` with a
ModRM reg field other than 0 it returns `False` with EIP already advanced
past the ModRM bytes — no rollback.  (Both the register and the memory
branch of the accepting path write the popped value through `reg.set`,
mirroring the source.) -/
def popDispatch (s : VMState) (op : Nat) : Outcome :=
  let sz := opsize s
  if op = 0x8F then
    match processModRM s sz sz with
    | (RM, R, s1) =>
      if R.reg ≠ 0 then .returns false s1
      else
        match stack_pop s1 sz with
        | (data, s2) =>
          .returns true { s2 with regs := regSet s2.regs RM.location sz data }
  else if 0x58 ≤ op ∧ op < 0x58 + 8 then
    match stack_pop s sz with
    | (data, s2) =>
      .returns true { s2 with regs := regSet s2.regs (op % 8) sz data }
  else .returns false s

/-- `_VM__addsub_al_imm` from `internals.py`. -/
def addsub_al_imm (s : VMState) (off : Nat) (sub : Bool) : VMState :=
  let imm := memGet s.mem s.eip off
  let s1 := { s with eip := s.eip + off }
  let a := regGet s1.regs 0 off
  { s1 with regs := regSet s1.regs 0 off (addsub_core a imm off sub) }

/-- `_VM__addsub_rm_imm` from `internals.py`.  It reads an immediate of
`imm_sz` bytes from memory at EIP but then advances EIP by `off` (the
operand width), i.e. `self.eip += off`.  On a sub-opcode mismatch it
restores EIP to its entry value before returning `False`. -/
def addsub_rm_imm (s : VMState) (off imm_sz : Nat) (sub : Bool) : Bool × VMState :=
  let old_eip := s.eip
  match processModRM s off off with
  | (RM, R, s1) =>
    let imm := memGet s1.mem s1.eip imm_sz
    let s2 := { s1 with eip := s1.eip + off }
    if ¬sub ∧ R.reg ≠ 0 then (false, { s2 with eip := old_eip })
    else if sub ∧ R.reg ≠ 5 then (false, { s2 with eip := old_eip })
    else if ¬RM.isMemory then
      let a := regGet s2.regs RM.location off
      (true, { s2 with regs := regSet s2.regs RM.location off (addsub_core a imm off sub) })
    else
      let a := memGet s2.mem RM.location off
      (true, { s2 with mem := memSetVal s2.mem RM.location off (addsub_core a imm off sub) })

/-- `_VM__addsub_rm_r` from `internals.py`. -/
def addsub_rm_r (s : VMState) (off : Nat) (sub : Bool) : VMState :=
  match processModRM s off off with
  | (RM, R, s1) =>
    if ¬RM.isMemory then
      let a := regGet s1.regs RM.location off
      let b := regGet s1.regs R.reg off
      { s1 with regs := regSet s1.regs RM.location off (addsub_core a b off sub) }
    else
      let a := memGet s1.mem RM.location off
      let b := regGet s1.regs R.reg off
      { s1 with mem := memSetVal s1.mem RM.location off (addsub_core a b off sub) }

/-- `_VM__addsub_r_rm` from `internals.py`. -/
def addsub_r_rm (s : VMState) (off : Nat) (sub : Bool) : VMState :=
  match processModRM s off off with
  | (RM, R, s1) =>
    if ¬RM.isMemory then
      let a := regGet s1.regs RM.location off
      let b := regGet s1.regs R.reg off
      { s1 with regs := regSet s1.regs R.reg off (addsub_core a b off sub) }
    else
      let a := memGet s1.mem RM.location off
      let b := regGet s1.regs R.reg off
      { s1 with regs := regSet s1.regs R.reg off (addsub_core a b off sub) }

/-- `VM._add` from `__init__.py`.  The immediate size handed to the
`rm,imm` handler is the one from the dispatcher's opcode table (modelled
from the spec, since the thin `__add_*` aliases binding `sub=False` are
not under `src/`): `0x80` is `rm8,imm8` and `0x81` is `rm,imm`. -/
def addDispatch (s : VMState) (op : Nat) : Outcome :=
  let sz := opsize s
  if op = 0x04 then .returns true (addsub_al_imm s 1 false)
  else if op = 0x05 then .returns true (addsub_al_imm s sz false)
  else if op = 0x80 then
    match addsub_rm_imm s 1 1 false with | (b, s1) => .returns b s1
  else if op = 0x81 then
    match addsub_rm_imm s sz sz false with | (b, s1) => .returns b s1
  else if op = 0x83 then .fatal "Addition rm, imm8 not implemented yet"
  else if op = 0x00 then .returns true (addsub_rm_r s 1 false)
  else if op = 0x01 then .returns true (addsub_rm_r s sz false)
  else if op = 0x02 then .returns true (addsub_r_rm s 1 false)
  else if op = 0x03 then .returns true (addsub_r_rm s sz false)
  else .returns false s

/-- A Python exception escaping a syscall handler. -/
inductive ExnKind where
  | indexError
  | attributeError
  | osError
  | valueError
  | fileNotFound
  | fileExists
  | unicodeDecodeError
deriving DecidableEq, Repr

/-- The observable result of running a syscall handler: a normal return
with the updated VM state, or a host exception propagating past the
handler boundary. -/
inductive SysOutcome where
  | ok (s : VMState)
  | exn (e : ExnKind)

/-- `SyscallsMixin.__args`: the fixed argument register order
`[ebx, ecx, edx, esi, edi]` = GPR indices `[3, 1, 2, 6, 7]`.  (The
signed/unsigned letters of the `types` argument are ignored by the
source: every argument is read as `reg.get(reg, 4)`.) -/
def argReg : Nat → Nat
  | 0 => 3
  | 1 => 1
  | 2 => 2
  | 3 => 6
  | _ => 7

/-- Argument `i` of a syscall, read from the fixed register order. -/
def getArg (s : VMState) (i : Nat) : Nat :=
  regGet s.regs (argReg i) 4

/-- `SyscallsMixin.__return`: write the 32-bit return value into the
accumulator (`self.reg.eax = value`; `-1` is stored as `0xFFFFFFFF`). -/
def sysReturn (s : VMState) (v : Int) : VMState :=
  { s with regs := regSet s.regs 0 4 (v % 2 ^ 32).toNat }

/-- The accumulator register (GPR 0) read at full width. -/
def accum (s : VMState) : Nat :=
  regGet s.regs 0 4

/-- Modelled from the spec: zero-filling `mem.memset(addr, 0, len)`. -/
def memZero (m : Nat → Nat) (addr len : Nat) : Nat → Nat :=
  fun a => if addr ≤ a ∧ a < addr + len then 0 else m a

/-- Modelled from the spec: `mem.get_bytes(addr, count)` as a byte list. -/
def memGetList (m : Nat → Nat) (addr : Nat) : Nat → List Nat
  | 0 => []
  | k + 1 => m addr % 256 :: memGetList m (addr + 1) k

/-- `SyscallsMixin.__read_string`: read a NUL-terminated byte string from
guest memory.  The Python loop runs one byte at a time; the `fuel` bound
models the fixed memory size, past which the underlying store faults
(`none` = the loop never finds a terminator inside the store). -/
def readString (m : Nat → Nat) (addr : Nat) : Nat → Option (List Nat)
  | 0 => none
  | fuel + 1 =>
    if m addr % 256 = 0 then some []
    else (readString m (addr + 1) fuel).map (fun l => m addr % 256 :: l)

/-- `SyscallsMixin.sys_exit`: deallocates the heap by resetting
`program_break` to `code_segment_end`, records the exit code and clears
the running flag.  (The diagnostic write to the host stderr stream has no
guest-visible effect.) -/
def sys_exit (s : VMState) : VMState :=
  { s with programBreak := s.codeSegmentEnd,
           retcode := getArg s 0,
           running := false }

/-- `SyscallsMixin.sys_read`, parameterised by the host read outcome
(`none` = the host raises `OSError`).  An out-of-range fd raises
`IndexError` inside the `try` block and is swallowed by the trailing bare
`except`, returning `-1`; a freed (None) slot raises `AttributeError`,
which is caught by the first `except` clause, whose fallback
`None.read(count)` then raises `AttributeError` outside any handler. -/
def sys_read (hostRead : HostStream → Nat → Option (List Nat)) (s : VMState) :
    SysOutcome :=
  let fd := getArg s 0
  let data_addr := getArg s 1
  let count := getArg s 2
  match s.descriptors.get? fd with
  | none => .ok (sysReturn s (-1))
  | some none => .exn .attributeError
  | some (some st) =>
    match hostRead st count with
    | none => .ok (sysReturn s (-1))
    | some data =>
      .ok (sysReturn { s with mem := memSetBytes s.mem data_addr data }
            (data.length : Int))

/-- `SyscallsMixin.sys_write`, parameterised by the host write outcome
(`none` = the host raises `OSError`).  Only `AttributeError` and
`UnsupportedOperation` are caught: an out-of-range fd raises `IndexError`
past the handler boundary, a freed slot ends in an uncaught
`AttributeError` from the fallback branch, and a host `OSError`
propagates.  The handler has no `-1` return path. -/
def sys_write (hostWrite : HostStream → List Nat → Option Nat) (s : VMState) :
    SysOutcome :=
  let fd := getArg s 0
  let buf_addr := getArg s 1
  let count := getArg s 2
  let _buf := memGetList s.mem buf_addr count
  match s.descriptors.get? fd with
  | none => .exn .indexError
  | some none => .exn .attributeError
  | some (some st) =>
    match hostWrite st (memGetList s.mem buf_addr count) with
    | none => .exn .osError
    | some ret => .ok (sysReturn s (ret : Int))

/-- `SyscallsMixin.sys_brk`: `brk < code_segment_end` and `brk == current
break` both return the current break unchanged; otherwise the break is
set to `brk` and returned. -/
def sys_brk (s : VMState) : VMState :=
  let brk := getArg s 0
  let min_brk := s.codeSegmentEnd
  if brk < min_brk then sysReturn s (s.programBreak : Int)
  else if s.programBreak = brk then sysReturn s (s.programBreak : Int)
  else sysReturn { s with programBreak := brk } (brk : Int)

/-- The offset `sys_llseek` hands to the host: the source combines the
two halves as `offset = (offset_high << 32) | offset_low` and then calls
`os.lseek(..., offset & 0xFFFFFFFF, whence)`. -/
def llseek_offset_arg (hi lo : Nat) : Nat :=
  ((hi <<< 32) ||| lo) &&& 0xFFFFFFFF

/-- `SyscallsMixin.sys_llseek`, parameterised by the host seek outcome
(`none` = `OSError`).  On success the resulting position is written as a
4-byte value at `result_addr` and `0` is returned; an `OSError` returns
`-1`.  An out-of-range fd raises `IndexError` (only `OSError` is caught). -/
def sys_llseek (hostSeek : HostStream → Nat → Nat → Option Nat) (s : VMState) :
    SysOutcome :=
  let fd := getArg s 0
  let hi := getArg s 1
  let lo := getArg s 2
  let result_addr := getArg s 3
  let whence := getArg s 4
  match s.descriptors.get? fd with
  | none => .exn .indexError
  | some none => .exn .attributeError
  | some (some st) =>
    match hostSeek st (llseek_offset_arg hi lo) whence with
    | none => .ok (sysReturn s (-1))
    | some ret =>
      .ok (sysReturn { s with mem := memSetVal s.mem result_addr 4 ret } 0)

/-- `SyscallsMixin.sys_mmap_pgoff`.  Flag bits outside the `MAP_FLAGS`
members (mask `0x33`) or protection bits outside the `MAP_PROT` members
(mask `0x7`) make the `enum.Flag` constructor raise `ValueError`.  With
`MAP_ANONYMOUS` set, the region `[break, break+length)` is zero-filled,
the break grows by `length` and the old break is returned; any other
form returns `-1`. -/
def sys_mmap_pgoff (s : VMState) : SysOutcome :=
  let length := getArg s 1
  let prot := getArg s 2
  let flags := getArg s 3
  if flags &&& 0x33 ≠ flags then .exn .valueError
  else if prot &&& 0x7 ≠ prot then .exn .valueError
  else if flags &&& 0x20 ≠ 0 then
    let old_brk := s.programBreak
    .ok (sysReturn { s with mem := memZero s.mem old_brk length,
                            programBreak := old_brk + length }
          (old_brk : Int))
  else .ok (sysReturn s (-1))

/-- `SyscallsMixin.sys_munmap`: when `addr + length` equals the current
break the break is retracted to `addr`; otherwise the state is left
alone.  Either way `0` is returned. -/
def sys_munmap (s : VMState) : VMState :=
  let addr := getArg s 0
  let length := getArg s 1
  if addr + length = s.programBreak then
    sysReturn { s with programBreak := addr } 0
  else sysReturn s 0

/-- `SyscallsMixin.sys_close`: an out-of-range or already-freed fd
returns `-1`; otherwise the host handle is closed and the slot is set to
the free sentinel (`None`), with no guard for the standard slots 0-2. -/
def sys_close (s : VMState) : VMState :=
  let fd := getArg s 0
  match s.descriptors.get? fd with
  | none => sysReturn s (-1)
  | some none => sysReturn s (-1)
  | some (some _) =>
    sysReturn { s with descriptors := s.descriptors.set fd none } 0

/-- `open_file` from `SyscallsMixin.sys_open`: scan the descriptor table
from index 0 (despite the source comment "find empty descriptor, starting
from 3") for the first free slot; reuse it, or append when the table has
no free slot. -/
def open_file (ds : List (Option HostStream)) (f : HostStream) :
    Nat × List (Option HostStream) :=
  match ds.findIdx? (fun x => x.isNone) with
  | some i => (i, ds.set i (some f))
  | none => (ds.length, ds ++ [some f])

/-- Allocate a descriptor for a successfully opened host file and return
its index to the guest. -/
def openOk (s : VMState) (path : List Nat) (mode : String) : SysOutcome :=
  match open_file s.descriptors (.file path mode) with
  | (d, ds) => .ok (sysReturn { s with descriptors := ds } (d : Int))

/-- Strict UTF-8 decoding of a byte list into a code-point list, as
performed by Python's `bytes.decode()` with the default strict codec:
accepts exactly the well-formed sequences (no overlong encodings, no
surrogates, nothing above U+10FFFF) and fails (`none` =
`UnicodeDecodeError`) on anything else. -/
def utf8Decode : List Nat → Option (List Nat)
  | [] => some []
  | b :: rest =>
    if b ≤ 0x7F then (utf8Decode rest).map (fun l => b :: l)
    else if 0xC2 ≤ b ∧ b ≤ 0xDF then
      match rest with
      | c1 :: rest1 =>
        if c1 / 64 = 2 then
          (utf8Decode rest1).map (fun l => (b % 32 * 64 + c1 % 64) :: l)
        else none
      | [] => none
    else if b = 0xE0 then
      match rest with
      | c1 :: c2 :: rest2 =>
        if (0xA0 ≤ c1 ∧ c1 ≤ 0xBF) ∧ c2 / 64 = 2 then
          (utf8Decode rest2).map (fun l => (b % 16 * 4096 + c1 % 64 * 64 + c2 % 64) :: l)
        else none
      | _ => none
    else if (0xE1 ≤ b ∧ b ≤ 0xEC) ∨ (0xEE ≤ b ∧ b ≤ 0xEF) then
      match rest with
      | c1 :: c2 :: rest2 =>
        if c1 / 64 = 2 ∧ c2 / 64 = 2 then
          (utf8Decode rest2).map (fun l => (b % 16 * 4096 + c1 % 64 * 64 + c2 % 64) :: l)
        else none
      | _ => none
    else if b = 0xED then
      match rest with
      | c1 :: c2 :: rest2 =>
        if (0x80 ≤ c1 ∧ c1 ≤ 0x9F) ∧ c2 / 64 = 2 then
          (utf8Decode rest2).map (fun l => (b % 16 * 4096 + c1 % 64 * 64 + c2 % 64) :: l)
        else none
      | _ => none
    else if b = 0xF0 then
      match rest with
      | c1 :: c2 :: c3 :: rest3 =>
        if (0x90 ≤ c1 ∧ c1 ≤ 0xBF) ∧ c2 / 64 = 2 ∧ c3 / 64 = 2 then
          (utf8Decode rest3).map
            (fun l => (b % 8 * 262144 + c1 % 64 * 4096 + c2 % 64 * 64 + c3 % 64) :: l)
        else none
      | _ => none
    else if 0xF1 ≤ b ∧ b ≤ 0xF3 then
      match rest with
      | c1 :: c2 :: c3 :: rest3 =>
        if c1 / 64 = 2 ∧ c2 / 64 = 2 ∧ c3 / 64 = 2 then
          (utf8Decode rest3).map
            (fun l => (b % 8 * 262144 + c1 % 64 * 4096 + c2 % 64 * 64 + c3 % 64) :: l)
        else none
      | _ => none
    else if b = 0xF4 then
      match rest with
      | c1 :: c2 :: c3 :: rest3 =>
        if (0x80 ≤ c1 ∧ c1 ≤ 0x8F) ∧ c2 / 64 = 2 ∧ c3 / 64 = 2 then
          (utf8Decode rest3).map
            (fun l => (b % 8 * 262144 + c1 % 64 * 4096 + c2 % 64 * 64 + c3 % 64) :: l)
        else none
      | _ => none
    else none

/-- The code points of "/etc". -/
def etcBytes : List Nat := [47, 101, 116, 99]

/-- `SyscallsMixin.sys_open`, parameterised by host path existence.  The
pathname bytes read from guest memory are first decoded
(`self.__read_string(pathname_addr).decode()`): bytes that are not valid
UTF-8 raise an uncaught `UnicodeDecodeError` before any flag is
inspected.  The branch order then mirrors the source: `flags & O_RDONLY`
(a bitwise AND with `0`, hence never taken), then `O_WRONLY` (with
`O_TRUNC` choosing mode `'w'` over `'x'`), `O_RDWR` (mode `'r+'`),
`O_LARGEFILE` (mode `'r'`, refusing paths under `/etc`), and finally the
catch-all returning `-1`.  Host `open` failures (missing file for
`'r'`/`'r+'`, existing file for `'x'`) raise uncaught exceptions before
any table update. -/
def sys_open (pathExists : List Nat → Bool) (fuel : Nat) (s : VMState) :
    SysOutcome :=
  let pathname_addr := getArg s 0
  let flags := getArg s 1
  match (readString s.mem pathname_addr fuel).map utf8Decode with
  | none => .exn .indexError
  | some none => .exn .unicodeDecodeError
  | some (some path) =>
    if flags &&& 0 ≠ 0 then
      if pathExists path = false then .ok (sysReturn s (-1))
      else openOk s path "r"
    else if flags &&& 0o1 ≠ 0 then
      if flags &&& 0o1000 ≠ 0 then openOk s path "w"
      else if pathExists path then .exn .fileExists
      else openOk s path "x"
    else if flags &&& 0o2 ≠ 0 then
      if pathExists path then openOk s path "r+"
      else .exn .fileNotFound
    else if flags &&& 0o100000 ≠ 0 then
      if path.take 4 = etcBytes then .ok (sysReturn s (-1))
      else if pathExists path then openOk s path "r"
      else .exn .fileNotFound
    else .ok (sysReturn s (-1))

/-- All-zero register file. -/
def reg0 : Nat → Nat := fun _ => 0

/-- All-zero memory. -/
def mem0 : Nat → Nat := fun _ => 0

/-- The descriptor table seeded at VM construction:
`[sys.stdin, sys.stdout, sys.stderr]`. -/
def stdDesc : List (Option HostStream) :=
  [some .stdin, some .stdout, some .stderr]

/-- A freshly constructed VM in 32-bit mode with zeroed registers and
memory and the seeded descriptor table. -/
def baseState : VMState :=
  { regs := reg0, mem := mem0, eip := 0, currentMode := 0,
    descriptors := stdDesc, programBreak := 0, codeSegmentEnd := 0,
    running := true, retcode := 0 }

/-- State whose next instruction byte (at EIP = 10) is the ModRM byte
`0xC8` (`mod = 3`, `reg = 1`, `rm = 0`). -/
def sPopReject : VMState :=
  { baseState with eip := 10, mem := fun a => if a = 10 then 0xC8 else 0 }

/-- State whose first syscall argument register (EBX) holds 5, an index
outside the three-entry descriptor table. -/
def sBadFd : VMState :=
  { baseState with regs := fun i => if i = 3 then 5 else 0 }

/-- State for the ADD `rm,imm` trace: ModRM byte `0xC0` (`mod = 3`,
`reg = 0`, `rm = 0`) at EIP = 0, followed by the immediate byte 7. -/
def sAddImm : VMState :=
  { baseState with mem := fun a => if a = 0 then 0xC0 else if a = 1 then 7 else 0 }

/-- State with `code_segment_end = 10` and `program_break = 20` and all
argument registers zero. -/
def sBrkQuery : VMState :=
  { baseState with codeSegmentEnd := 10, programBreak := 20 }

/-- State with `code_segment_end = program_break = 100` whose munmap
arguments are `addr = 50` (EBX) and `length = 50` (ECX). -/
def sMunmapLow : VMState :=
  { baseState with regs := fun i => if i = 3 then 50 else if i = 1 then 50 else 0,
                   programBreak := 100, codeSegmentEnd := 100 }

/-- State whose first syscall argument register (EBX) holds 1, the
standard-output descriptor. -/
def sFdOne : VMState :=
  { baseState with regs := fun i => if i = 3 then 1 else 0 }

/-- State whose guest memory holds the NUL-terminated pathname
`[0xFF]` at address 0 — a byte string that is not valid UTF-8 — with all
argument registers zero (so `pathname_addr = 0` and `flags = 0`). -/
def sBadPath : VMState :=
  { baseState with mem := fun a => if a = 0 then 0xFF else 0 }

theorem MAXVALS_eq (off : Nat) (h : off = 1 ∨ off = 2 ∨ off = 4) :
    MAXVALS off = 2 ^ (8 * off) - 1 := by
  rcases h with h | h | h <;> subst h <;> rfl

theorem addsub_core_eq_mod (a imm off : Nat) (sub : Bool)
    (h : off = 1 ∨ off = 2 ∨ off = 4) :
    addsub_core a imm off sub
      = (a + (if sub then MAXVALS off + 1 - imm else imm)) % 2 ^ (8 * off) := by
  have hm : MAXVALS off = 2 ^ (8 * off) - 1 := MAXVALS_eq off h
  unfold addsub_core
  rw [hm, Nat.and_pow_two_sub_one_eq_mod]

theorem sysReturn_programBreak (s : VMState) (v : Int) :
    (sysReturn s v).programBreak = s.programBreak := rfl

theorem sysReturn_descriptors (s : VMState) (v : Int) :
    (sysReturn s v).descriptors = s.descriptors := rfl

theorem accum_sysReturn (s : VMState) (v : Nat) :
    accum (sysReturn s (v : Int)) = v % 2 ^ 32 := by
  have hv : (((v : Int) % 2 ^ 32).toNat) = v % 2 ^ 32 := by omega
  simp only [accum, sysReturn, regGet, regSet, if_pos rfl, hv, if_true]
  omega

theorem accum_sysReturn_neg_one (s : VMState) :
    accum (sysReturn s (-1)) = 0xFFFFFFFF := by
  have hv : (((-1 : Int) % 2 ^ 32).toNat) = 0xFFFFFFFF := by decide
  simp only [accum, sysReturn, regGet, regSet, if_pos rfl, hv, if_true]
  omega

/-- C1: the rollback invariant fails on the code: `VM._pop` offered the
group opcode `0x8F` with ModRM byte `0xC8` (reg field 1 ≠ 0) returns
`False`, yet EIP has moved from its entry value 10 to 11 — the
tentatively consumed ModRM byte is not rolled back.  (`_VM__mov_rm_imm`,
`_push`, `_call` and `_jmp` reject their group opcodes the same way; only
`_VM__addsub_rm_imm` restores `old_eip`.) -/
theorem pop_reject_keeps_advanced_eip :
    popDispatch sPopReject 0x8F = .returns false { sPopReject with eip := 11 } ∧
    sPopReject.eip = 10 :=
  ⟨rfl, rfl⟩

/-- C2: for every operand width `w ∈ {1,2,4}` and operands representable
in `w` bytes, the shared ADD/SUB core computes `(a+b) mod 2^(8w)` for ADD
and — via `a + (2^(8w) - b)` with no borrow logic — `(a-b) mod 2^(8w)`
for SUB; concretely `add(0xFFFFFFFF,1,4) = 0` and `sub(0,1,1) = 0xFF`. -/
theorem addsub_modular (off a b : Nat)
    (hw : off = 1 ∨ off = 2 ∨ off = 4)
    (ha : a < 2 ^ (8 * off)) (hb : b < 2 ^ (8 * off)) :
    addsub_core a b off false = (a + b) % 2 ^ (8 * off) ∧
    addsub_core a b off true = (a + (2 ^ (8 * off) - b)) % 2 ^ (8 * off) ∧
    ((addsub_core a b off true : Int) = ((a : Int) - (b : Int)) % 2 ^ (8 * off)) ∧
    addsub_core 0xFFFFFFFF 1 4 false = 0 ∧
    addsub_core 0 1 1 true = 0xFF := by
  have hm := MAXVALS_eq off hw
  have hsub : addsub_core a b off true = (a + (2 ^ (8 * off) - b)) % 2 ^ (8 * off) := by
    rw [addsub_core_eq_mod a b off true hw, if_pos rfl, hm]
    congr 2
    have h1 : (1 : Nat) ≤ 2 ^ (8 * off) := Nat.one_le_two_pow
    omega
  refine ⟨?_, hsub, ?_, ?_, ?_⟩
  · rw [addsub_core_eq_mod a b off false hw]
    simp
  · rw [hsub]
    have hble : b ≤ 2 ^ (8 * off) := hb.le
    push_cast [Nat.cast_sub hble]
    rw [show (a : Int) + ((2 : Int) ^ (8 * off) - b) = a - b + 2 ^ (8 * off) by ring,
      Int.add_emod_self]
  · decide
  · decide

theorem addsub_modular_witness :
    addsub_core 3 5 1 false = (3 + 5) % 2 ^ (8 * 1) :=
  (addsub_modular 1 3 5 (Or.inl rfl) (by decide) (by decide)).1

/-- C3 counterexample: `sys_write` offered an out-of-range file
descriptor (fd 5 with a three-entry table) raises `IndexError` past the
handler boundary instead of returning `-1` — only `AttributeError` and
`UnsupportedOperation` are caught, and the handler has no `-1` path. -/
theorem write_bad_fd_raises :
    sys_write (fun _ l => some l.length) sBadFd = .exn .indexError := rfl

/-- C3 amended: recovery at the syscall boundary is not uniform.
`sys_read` does recover: an out-of-range fd (`IndexError`) and a host
read failure (`OSError`) are swallowed by its catch-all `except` and
surface as `-1` in the accumulator with execution continuing; but
`sys_write` propagates `IndexError` for an out-of-range fd. -/
theorem syscall_failure_recovery_mixed :
    (∀ hostRead : HostStream → Nat → Option (List Nat), ∀ s : VMState,
      s.descriptors.get? (getArg s 0) = none →
      sys_read hostRead s = .ok (sysReturn s (-1))) ∧
    (∀ hostRead : HostStream → Nat → Option (List Nat), ∀ s : VMState,
      ∀ st : HostStream,
      s.descriptors.get? (getArg s 0) = some (some st) →
      hostRead st (getArg s 2) = none →
      sys_read hostRead s = .ok (sysReturn s (-1))) ∧
    (∀ hostWrite : HostStream → List Nat → Option Nat, ∀ s : VMState,
      s.descriptors.get? (getArg s 0) = none →
      sys_write hostWrite s = .exn .indexError) := by
  refine ⟨?_, ?_, ?_⟩
  · intro hostRead s h
    rw [List.get?_eq_getElem?] at h
    simp [sys_read, h]
  · intro hostRead s st h hr
    rw [List.get?_eq_getElem?] at h
    simp [sys_read, h, hr]
  · intro hostWrite s h
    rw [List.get?_eq_getElem?] at h
    simp [sys_write, h]

theorem syscall_failure_recovery_mixed_witness :
    sys_read (fun _ _ => none) sBadFd = .ok (sysReturn sBadFd (-1)) :=
  syscall_failure_recovery_mixed.1 (fun _ _ => none) sBadFd rfl

/-- C4: the fd-table invariant fails on the code.  From the seeded table,
`sys_close(fd=0)` happily closes standard input and sets slot 0 to the
free sentinel (the handler has no guard for slots 0-2), and the next
`open_file` then hands out slot 0, not a slot ≥ 3 — the allocation scan
starts at index 0 even though the source comment says "find empty
descriptor, starting from 3". -/
theorem close_frees_stdin_and_open_reuses_slot0 :
    (sys_close baseState).descriptors = [none, some .stdout, some .stderr] ∧
    accum (sys_close baseState) = 0 ∧
    (open_file [none, some .stdout, some .stderr] (.file [102] "w")).1 = 0 ∧
    baseState.descriptors = [some .stdin, some .stdout, some .stderr] :=
  ⟨rfl, rfl, rfl, rfl⟩

/-- C5: `sys_brk` on a state with a loaded image (`0 < code_segment_end ≤
program_break`): querying with `addr = 0` returns the current break
unchanged, any `addr < code_segment_end` is a no-op returning the current
break, and any `addr` above the current break sets the break to exactly
`addr` and returns it. -/
theorem brk_semantics (s : VMState)
    (hcse : 0 < s.codeSegmentEnd)
    (hinv : s.codeSegmentEnd ≤ s.programBreak) :
    (getArg s 0 = 0 →
      (sys_brk s).programBreak = s.programBreak ∧
      accum (sys_brk s) = s.programBreak % 2 ^ 32) ∧
    (getArg s 0 < s.codeSegmentEnd →
      (sys_brk s).programBreak = s.programBreak ∧
      accum (sys_brk s) = s.programBreak % 2 ^ 32) ∧
    (s.programBreak < getArg s 0 →
      (sys_brk s).programBreak = getArg s 0 ∧
      accum (sys_brk s) = getArg s 0 % 2 ^ 32) := by
  refine ⟨?_, ?_, ?_⟩
  · intro h0
    have hlt : getArg s 0 < s.codeSegmentEnd := by omega
    simp only [sys_brk]
    rw [if_pos hlt]
    exact ⟨rfl, accum_sysReturn s s.programBreak⟩
  · intro hlt
    simp only [sys_brk]
    rw [if_pos hlt]
    exact ⟨rfl, accum_sysReturn s s.programBreak⟩
  · intro hgt
    have hge : ¬ getArg s 0 < s.codeSegmentEnd := by omega
    have hne : ¬ s.programBreak = getArg s 0 := by omega
    simp only [sys_brk]
    rw [if_neg hge, if_neg hne]
    exact ⟨rfl, accum_sysReturn { s with programBreak := getArg s 0 } (getArg s 0)⟩

theorem brk_semantics_witness :
    (sys_brk sBrkQuery).programBreak = sBrkQuery.programBreak ∧
    accum (sys_brk sBrkQuery) = sBrkQuery.programBreak % 2 ^ 32 :=
  (brk_semantics sBrkQuery (by decide) (by decide)).1 rfl

/-- C6 counterexample: from a state with `code_segment_end =
program_break = 100` (so the invariant holds), `sys_munmap(addr = 50,
length = 50)` retracts the break to 50 — below `code_segment_end` —
because the handler only checks `addr + length == program_break`. -/
theorem munmap_drops_break_below_code_end :
    (sys_munmap sMunmapLow).programBreak = 50 ∧
    sMunmapLow.codeSegmentEnd = 100 ∧
    sMunmapLow.codeSegmentEnd ≤ sMunmapLow.programBreak ∧
    accum (sys_munmap sMunmapLow) = 0 :=
  ⟨rfl, rfl, by decide, rfl⟩

/-- C6 amended: `program_break` is modified only by the brk, mmap_pgoff,
munmap and exit handlers (the other embedded handlers leave it
untouched); brk, mmap_pgoff and exit never move it below
`code_segment_end`, but munmap retracts it to the caller-supplied `addr`
whenever `addr + length` equals the current break, with no lower bound —
in particular it can move the break below `code_segment_end`. -/
theorem break_watermark_amended :
    (∀ s : VMState, s.codeSegmentEnd ≤ s.programBreak →
      s.codeSegmentEnd ≤ (sys_brk s).programBreak) ∧
    (∀ s s4 : VMState, s.codeSegmentEnd ≤ s.programBreak →
      sys_mmap_pgoff s = .ok s4 → s.codeSegmentEnd ≤ s4.programBreak) ∧
    (∀ s : VMState, (sys_exit s).programBreak = s.codeSegmentEnd) ∧
    (∀ s : VMState, (sys_munmap s).programBreak =
      if getArg s 0 + getArg s 1 = s.programBreak then getArg s 0
      else s.programBreak) ∧
    (∀ hr : HostStream → Nat → Option (List Nat), ∀ s s4 : VMState,
      sys_read hr s = .ok s4 → s4.programBreak = s.programBreak) ∧
    (∀ hw : HostStream → List Nat → Option Nat, ∀ s s4 : VMState,
      sys_write hw s = .ok s4 → s4.programBreak = s.programBreak) ∧
    (∀ hs : HostStream → Nat → Nat → Option Nat, ∀ s s4 : VMState,
      sys_llseek hs s = .ok s4 → s4.programBreak = s.programBreak) ∧
    (∀ pe : List Nat → Bool, ∀ fuel : Nat, ∀ s s4 : VMState,
      sys_open pe fuel s = .ok s4 → s4.programBreak = s.programBreak) ∧
    (∀ s : VMState, (sys_close s).programBreak = s.programBreak) := by
  refine ⟨?_, ?_, ?_, ?_, ?_, ?_, ?_, ?_, ?_⟩
  · intro s h
    simp only [sys_brk]
    split
    · simpa [sysReturn_programBreak] using h
    · split
      · simpa [sysReturn_programBreak] using h
      · simp only [sysReturn_programBreak]
        omega
  · intro s s4 h hok
    simp only [sys_mmap_pgoff] at hok
    split at hok
    · cases hok
    · split at hok
      · cases hok
      · split at hok
        · cases hok
          simp only [sysReturn_programBreak]
          omega
        · cases hok
          simpa [sysReturn_programBreak] using h
  · intro s
    rfl
  · intro s
    simp only [sys_munmap]
    split
    · rename_i h
      simp [sysReturn_programBreak, h]
    · rename_i h
      simp [sysReturn_programBreak, h]
  · intro hr s s4 hok
    simp only [sys_read] at hok
    split at hok
    · cases hok
      rfl
    · cases hok
    · split at hok
      · cases hok
        rfl
      · cases hok
        rfl
  · intro hw s s4 hok
    simp only [sys_write] at hok
    split at hok
    · cases hok
    · cases hok
    · split at hok
      · cases hok
      · cases hok
        rfl
  · intro hs s s4 hok
    simp only [sys_llseek] at hok
    split at hok
    · cases hok
    · cases hok
    · split at hok
      · cases hok
        rfl
      · cases hok
        rfl
  · intro pe fuel s s4 hok
    simp only [sys_open, openOk] at hok
    repeat' split at hok
    all_goals cases hok
    all_goals rfl
  · intro s
    simp only [sys_close]
    split <;> rfl

theorem break_watermark_amended_witness :
    sBrkQuery.codeSegmentEnd ≤ (sys_brk sBrkQuery).programBreak :=
  break_watermark_amended.1 sBrkQuery (by decide)

/-- C7 counterexample: with `offset_high = 1`, `offset_low = 0` the
handler passes offset `0` to the host seek (`offset & 0xFFFFFFFF`), not
the combined 64-bit value `2^32`. -/
theorem llseek_offset_is_masked :
    llseek_offset_arg 1 0 = 0 ∧ ((1 <<< 32 : Nat) ||| 0) = 2 ^ 32 := by
  constructor <;> decide

/-- C7 amended: `sys_llseek` combines the two halves into
`(hi << 32) | lo` but performs the host seek at the low 32 bits of that
value (`offset & 0xFFFFFFFF`); on success the resulting position is
written as a 4-byte value at `result_addr` and the accumulator receives
0, and on a host `OSError` the accumulator receives -1. -/
theorem llseek_amended
    (hostSeek : HostStream → Nat → Nat → Option Nat) (s : VMState)
    (st : HostStream)
    (hfd : s.descriptors.get? (getArg s 0) = some (some st)) :
    (hostSeek st (llseek_offset_arg (getArg s 1) (getArg s 2)) (getArg s 4) = none →
      sys_llseek hostSeek s = .ok (sysReturn s (-1))) ∧
    (∀ r : Nat,
      hostSeek st (llseek_offset_arg (getArg s 1) (getArg s 2)) (getArg s 4) = some r →
      sys_llseek hostSeek s
        = .ok (sysReturn { s with mem := memSetVal s.mem (getArg s 3) 4 r } 0)) := by
  rw [List.get?_eq_getElem?] at hfd
  constructor
  · intro hseek
    simp [sys_llseek, hfd, hseek]
  · intro r hseek
    simp [sys_llseek, hfd, hseek]

theorem llseek_amended_witness :
    sys_llseek (fun _ _ _ => none) sFdOne = .ok (sysReturn sFdOne (-1)) :=
  (llseek_amended (fun _ _ _ => none) sFdOne .stdout rfl).1 rfl

/-- C8 counterexample: `VM._mov` offered the opcode byte `0xA0`
(`al,moffs8`) returns `False` with the state untouched — it does not
return true, and it transfers nothing. -/
theorem mov_moffs_not_dispatched :
    movDispatch baseState 0xA0 = .returns false baseState :=
  rfl

/-- C8 amended: the MOV dispatcher lists the accumulator/absolute-address
opcodes `0xA0..0xA3` in its `valid_op` table, but no branch of the
dispatch chain tests for them: for each of these opcode bytes it returns
false with the state untouched, and the suspect moffs transfer
implementations in `internals.py` are never invoked. -/
theorem mov_moffs_opcodes_return_false (s : VMState) (op : Nat)
    (h : op = 0xA0 ∨ op = 0xA1 ∨ op = 0xA2 ∨ op = 0xA3) :
    movDispatch s op = .returns false s := by
  rcases h with h | h | h | h <;> subst h <;> rfl

theorem mov_moffs_opcodes_return_false_witness :
    movDispatch sFdOne 0xA1 = .returns false sFdOne :=
  mov_moffs_opcodes_return_false sFdOne 0xA1 (Or.inr (Or.inl rfl))

/-- C9: the accepting `rm,imm` ADD handler reads an immediate of exactly
`imm_sz` bytes from memory at EIP but then advances EIP past the ModRM
bytes plus `off` bytes — the operand width, not the immediate width
(`self.eip += off`).  Concretely, with `off = 4`, `imm_sz = 1`, ModRM
byte `0xC0` and immediate byte 7 at entry EIP 0, the handler accepts,
adds the one-byte immediate 7 into EAX, and leaves EIP at
1 + 4 = 5 instead of 1 + 1 = 2. -/
theorem addsub_rm_imm_advances_by_operand_width :
    addsub_rm_imm sAddImm 4 1 false
      = (true, { sAddImm with eip := 5, regs := regSet sAddImm.regs 0 4 7 }) ∧
    sAddImm.eip = 0 ∧
    memGet sAddImm.mem 1 1 = 7 :=
  ⟨rfl, rfl, rfl⟩

/-- C10 counterexample: `sys_open` called with `flags = 0` on a state
whose NUL-terminated pathname bytes are `[0xFF]` — not valid UTF-8 —
raises `UnicodeDecodeError` from `pathname.decode()` before any flag is
inspected: no -1 is written and the handler does not return normally. -/
theorem open_flags_zero_can_raise_decode_error :
    sys_open (fun _ => true) 2 sBadPath = .exn .unicodeDecodeError ∧
    getArg sBadPath 1 = 0 ∧
    readString sBadPath.mem (getArg sBadPath 0) 2 = some [0xFF] :=
  ⟨rfl, rfl, rfl⟩

/-- C10 amended: for every call of `sys_open` whose flags argument is 0
(`O_RDONLY = 0`) and whose pathname bytes decode as UTF-8, the handler
writes -1 to the accumulator and leaves the file-descriptor table
unchanged, regardless of whether the pathname exists: every flag-mask
branch tests `flags` against a bit mask, and `flags = 0` matches none of
them.  (When the pathname bytes are not valid UTF-8, `pathname.decode()`
raises an uncaught `UnicodeDecodeError` before the flag dispatch.) -/
theorem open_flags_zero_returns_minus_one
    (pathExists : List Nat → Bool) (fuel : Nat) (s : VMState)
    (bytes path : List Nat)
    (hread : readString s.mem (getArg s 0) fuel = some bytes)
    (hdec : utf8Decode bytes = some path)
    (hflags : getArg s 1 = 0) :
    sys_open pathExists fuel s = .ok (sysReturn s (-1)) ∧
    (sysReturn s (-1)).descriptors = s.descriptors ∧
    accum (sysReturn s (-1)) = 0xFFFFFFFF := by
  refine ⟨?_, sysReturn_descriptors s (-1), accum_sysReturn_neg_one s⟩
  simp [sys_open, hread, hdec, hflags]

theorem open_flags_zero_witness :
    sys_open (fun _ => true) 1 baseState = .ok (sysReturn baseState (-1)) :=
  (open_flags_zero_returns_minus_one (fun _ => true) 1 baseState [] [] rfl rfl rfl).1

end PyVM
